import Mathlib

/-!
Verification of the `Option` data type of the `std` repository
(`src/option/option.ts`), against its natural-language specification.

The TypeScript classes `Some<A>` / `None<A>` (subclasses of the abstract
`Option<A>`) are embedded as a two-constructor inductive `TS.Option`.
Operations that may throw (only `get`, which throws `Error('None.get')`
on a `None`) are embedded in `Except String`; every operation of the
source that calls `this.get()` / `self.get()` is translated with that
call in the `Except` monad, exactly under the guards the source uses, so
that totality ("never throws") of the derived operations is a theorem
about the guard discipline, not an artifact of the embedding.
-/

namespace TS

/-- JS `null` / `undefined` / actual value, the domain of a TS value of
type `A | null | undefined` (argument of `fromNullable`), and also the
type of the static field `None.#instance` (initially `undefined`). -/
inductive Nullable (A : Type) where
  | nullV : Nullable A
  | undefinedV : Nullable A
  | value (a : A) : Nullable A
deriving DecidableEq, Repr

/-- The `Option` sum type of `src/option/option.ts`: an instance of
class `None` (no payload) or of class `Some` (one immutable payload,
`readonly #value`). -/
inductive Option (A : Type) where
  | None : Option A
  | Some (value : A) : Option A
deriving DecidableEq, Repr

/-- `None.prototype.get` throws `new Error('None.get')`;
`Some.prototype.get` returns the stored `#value`. -/
def Option.get : Option A → Except String A
  | Option.None => Except.error "None.get"
  | Option.Some a => Except.ok a

/-- `Option.isNone(self)`: `self instanceof None`. -/
def Option.isNone : Option A → Bool
  | Option.None => true
  | Option.Some _ => false

/-- `Option.isSome(self)`: `self instanceof Some`. -/
def Option.isSome : Option A → Bool
  | Option.None => false
  | Option.Some _ => true

/-- Method `isEmpty`, an alias of `isNone` (`this.isNone()`). -/
def Option.isEmpty (self : Option A) : Bool :=
  Option.isNone self

/-- `Option.of(a)`: `new Some(a)`.  `Option.Some(value)` delegates to
it. -/
def Option.of (a : A) : Option A :=
  Option.Some a

/-- The discriminant `_tag` of the instance (`'None'` or `'Some'`). -/
def Option.tag : Option A → String
  | Option.None => "None"
  | Option.Some _ => "Some"

/-- `Option.fromNullable(nullableValue)`: `None` when the argument is
`null` or `undefined` (`nullableValue === undefined || nullableValue
=== null`), else `Some(nullableValue)`. -/
def Option.fromNullable : Nullable A → Option A
  | Nullable.nullV => Option.None
  | Nullable.undefinedV => Option.None
  | Nullable.value a => Option.Some a

/-- Static `Option.flatMap`: `Option.isNone(self) ? Option.None() :
f(self.get())`. -/
def Option.flatMap (f : A → Option B) (self : Option A) :
    Except String (Option B) :=
  if Option.isNone self then Except.ok Option.None
  else Except.map f (Option.get self)

/-- Prototype method `flatMap`: `Option.flatMap(f)(this)`. -/
def Option.flatMapMethod (self : Option A) (f : A → Option B) :
    Except String (Option B) :=
  Option.flatMap f self

/-- Static `Option.map`: `Option.isNone(self) ? Option.None() :
Option.Some(f(self.get()))`. -/
def Option.map (f : A → B) (self : Option A) : Except String (Option B) :=
  if Option.isNone self then Except.ok Option.None
  else Except.map (fun a => Option.Some (f a)) (Option.get self)

/-- Method `imap(f, g)`: `Option.map(f)(this)` (the backward function is
ignored). -/
def Option.imap (f : A → B) (_g : B → A) (self : Option A) :
    Except String (Option B) :=
  Option.map f self

/-- Static `Option.fold(ifEmpty, f)`: `self.isEmpty() ? ifEmpty() :
f(self.get())`. -/
def Option.fold (ifEmpty : Unit → B) (f : A → B) (self : Option A) :
    Except String B :=
  if Option.isEmpty self then Except.ok (ifEmpty ())
  else Except.map f (Option.get self)

/-- The record of callbacks taken by `match`. -/
structure MatchCases (A B : Type) where
  onNone : Unit → B
  onSome : A → B

/-- Static `Option.match(cases)`: `Option.fold(cases.onNone,
cases.onSome)`. -/
def Option.matchCases (cases : MatchCases A B) (self : Option A) :
    Except String B :=
  Option.fold cases.onNone cases.onSome self

/-- Method `getOrElse(defaultValue)`: `this.isEmpty() ? defaultValue()
: this.get()`. -/
def Option.getOrElse (self : Option A) (defaultValue : Unit → A) :
    Except String A :=
  if Option.isEmpty self then Except.ok (defaultValue ())
  else Option.get self

/-- Static `Option.reduce(b, f)`: `Option.isNone(self) ? b : f(b,
self.get())`. -/
def Option.reduce (b : B) (f : B → A → B) (self : Option A) :
    Except String B :=
  if Option.isNone self then Except.ok b
  else Except.map (fun a => f b a) (Option.get self)

/-- Static `Option.product(self, that)`:
`Option.isSome(self) && Option.isSome(that)
  ? Option.of([self.get(), that.get()]) : Option.None()`. -/
def Option.product (self : Option A) (that : Option B) :
    Except String (Option (A × B)) :=
  if Option.isSome self && Option.isSome that then do
    let a ← Option.get self
    let b ← Option.get that
    return Option.of (a, b)
  else Except.ok Option.None

/-- The `for (const option of collection)` loop shared by `productAll`
and `productMany`, with `out` the accumulator array (`out.push(x)` is
`out ++ [x]`).  The iterable is embedded as the list of elements its
iterator yields; the second component counts how many elements of the
iterable the loop consumed (one `next()` per element pulled), so that
short-circuiting is observable: an early `return` stops consumption. -/
def Option.productLoop (out : List A) :
    List (Option A) → Except String (Option (List A)) × Nat
  | [] => (Except.ok (Option.of out), 0)
  | option :: rest =>
    if Option.isNone option then (Except.ok Option.None, 1)
    else
      match Option.get option with
      | Except.error e => (Except.error e, 1)
      | Except.ok a =>
        let r := Option.productLoop (out ++ [a]) rest
        (r.1, r.2 + 1)

/-- Static `Option.productAll(optionCollection)`: starts with `out =
[]`, loops over the collection returning `None` at the first `None`
member, else `Option.of(out)`.  Returns the result paired with the
number of elements consumed from the iterable. -/
def Option.productAll (optionCollection : List (Option A)) :
    Except String (Option (List A)) × Nat :=
  Option.productLoop [] optionCollection

/-- Static `Option.productMany(self, collection)`: returns `None` at
once when `self` is `None` (the collection's iterator is never invoked,
0 elements consumed); else starts with `out = [self.get()]` and runs
the same loop as `productAll`. -/
def Option.productMany (self : Option A) (collection : List (Option A)) :
    Except String (Option (List A)) × Nat :=
  if Option.isNone self then (Except.ok Option.None, 0)
  else
    match Option.get self with
    | Except.error e => (Except.error e, 0)
    | Except.ok a => Option.productLoop [a] collection

/-! ## Runtime JS values

`equals` and `isOption` take an `unknown` argument, and `JSON.stringify`
walks arbitrary runtime values, so they are embedded over a small domain
of JS runtime values.  An instance of the library's `Some` / `None`
classes is a distinguished constructor `vOptionInst` (this is what
`instanceof None` / `instanceof Some` observes); a plain object — even
one with an Option-like shape — is `vObj`. -/

inductive JSValue where
  | vNull : JSValue
  | vUndefined : JSValue
  | vBool (b : Bool) : JSValue
  | vNum (n : Int) : JSValue
  | vStr (s : String) : JSValue
  | vObj (fields : List (String × JSValue)) : JSValue
  | vOptionInst (o : Option JSValue) : JSValue

/-- `input instanceof None` for an arbitrary runtime value. -/
def JSValue.instanceofNone : JSValue → Bool
  | JSValue.vOptionInst Option.None => true
  | _ => false

/-- `input instanceof Some` for an arbitrary runtime value. -/
def JSValue.instanceofSome : JSValue → Bool
  | JSValue.vOptionInst (Option.Some _) => true
  | _ => false

/-- `Option.isOption(input)`: `input instanceof None || input
instanceof Some`. -/
def Option.isOption (input : JSValue) : Bool :=
  JSValue.instanceofNone input || JSValue.instanceofSome input

/-- `that.get()` on an arbitrary runtime value: the library's `get`
when `that` is an Option instance, a `TypeError` otherwise (in `equals`
this call is guarded by `Option.isOption(that) && Option.isSome(that)`,
so the `TypeError` arm is unreachable there). -/
def JSValue.getMember : JSValue → Except String JSValue
  | JSValue.vOptionInst o => Option.get o
  | _ => Except.error "TypeError: that.get is not a function"

/-- Method `equals(that, predicateStrategy)`:
`this.isSome()
  ? Option.isOption(that) && Option.isSome(that) &&
    predicateStrategy(this.get(), that.get())
  : Option.isOption(that) && Option.isNone(that)`.
`&&` short-circuits, so `this.get()` / `that.get()` run only once both
sides are known to be `Some`. -/
def Option.equals (self : Option JSValue) (that : JSValue)
    (predicateStrategy : JSValue → JSValue → Bool) : Except String Bool :=
  if Option.isSome self then
    if Option.isOption that && JSValue.instanceofSome that then do
      let a ← Option.get self
      let b ← JSValue.getMember that
      return predicateStrategy a b
    else Except.ok false
  else Except.ok (Option.isOption that && JSValue.instanceofNone that)

/-! ## Serialization (`toJSON` / `toString`)

`toJSON` returns the object literal
`{ _id: 'Option', _tag: this._tag, ...(this.isSome() ? { value:
this.get() } : {}) }` — the spread puts a `value` key in the record
exactly when the instance is a `Some`.  `toString` returns
`format(this.toJSON())` where `format(x) = JSON.stringify(x, null, 2)`.
`JSON.stringify` is embedded below: objects print with 2-space
indentation, keys holding `undefined` are omitted, and a nested object
carrying a `toJSON` method (i.e. a nested Option instance) is replaced
by its `toJSON()` record before printing. -/

/-- Presence or absence of an object key (the spread in `toJSON`). -/
inductive Field (A : Type) where
  | absent : Field A
  | present (a : A) : Field A
deriving DecidableEq, Repr

/-- The record returned by `toJSON`. -/
structure OptionJSON (A : Type) where
  idKey : String
  tagKey : String
  valueKey : Field A
deriving DecidableEq, Repr

/-- Method `toJSON`. -/
def Option.toJSON (self : Option A) : Except String (OptionJSON A) :=
  if Option.isSome self then
    Except.map (fun a => ⟨"Option", Option.tag self, Field.present a⟩)
      (Option.get self)
  else Except.ok ⟨"Option", Option.tag self, Field.absent⟩

/-- JSON trees as `JSON.stringify` sees them after the `toJSON`
replacement step. -/
inductive PlainJSON where
  | jUndefined : PlainJSON
  | jNull : PlainJSON
  | jBool (b : Bool) : PlainJSON
  | jNum (n : Int) : PlainJSON
  | jStr (s : String) : PlainJSON
  | jObj (fields : List (String × PlainJSON)) : PlainJSON

mutual

/-- The `toJSON`-replacement pass of `JSON.stringify`: an Option
instance anywhere in the tree is replaced by its `toJSON()` record. -/
def resolve : JSValue → PlainJSON
  | JSValue.vNull => PlainJSON.jNull
  | JSValue.vUndefined => PlainJSON.jUndefined
  | JSValue.vBool b => PlainJSON.jBool b
  | JSValue.vNum n => PlainJSON.jNum n
  | JSValue.vStr s => PlainJSON.jStr s
  | JSValue.vObj fields => PlainJSON.jObj (resolveFields fields)
  | JSValue.vOptionInst Option.None =>
    PlainJSON.jObj [("_id", PlainJSON.jStr "Option"),
      ("_tag", PlainJSON.jStr "None")]
  | JSValue.vOptionInst (Option.Some a) =>
    PlainJSON.jObj [("_id", PlainJSON.jStr "Option"),
      ("_tag", PlainJSON.jStr "Some"), ("value", resolve a)]

def resolveFields : List (String × JSValue) → List (String × PlainJSON)
  | [] => []
  | (k, v) :: rest => (k, resolve v) :: resolveFields rest

end

/-- Four-digit hexadecimal rendering used by `\uXXXX` escapes. -/
def hex4 (n : Nat) : String :=
  let ds := Nat.toDigits 16 n
  String.mk (List.replicate (4 - ds.length) '0' ++ ds)

/-- JSON string-character escaping as performed by `JSON.stringify`. -/
def escapeChar (c : Char) : String :=
  if c = '"' then "\\\""
  else if c = '\\' then "\\\\"
  else if c = '\n' then "\\n"
  else if c = '\r' then "\\r"
  else if c = '\t' then "\\t"
  else if c = Char.ofNat 8 then "\\b"
  else if c = Char.ofNat 12 then "\\f"
  else if c.toNat < 32 then "\\u" ++ hex4 c.toNat
  else String.singleton c

/-- `JSON.stringify`'s quoting of a string. -/
def quoteStr (s : String) : String :=
  "\"" ++ String.join (s.toList.map escapeChar) ++ "\""

/-- The indentation produced by a gap of two spaces at depth `d`. -/
def indentStr (d : Nat) : String :=
  String.mk (List.replicate (2 * d) ' ')

mutual

/-- `JSON.stringify(·, null, 2)` on a resolved JSON tree at nesting
depth `d`.  Serializing `undefined` yields no string (the JS value
`undefined`), which makes the enclosing object omit the key. -/
def serializeVal (d : Nat) : PlainJSON → Nullable String
  | PlainJSON.jUndefined => Nullable.undefinedV
  | PlainJSON.jNull => Nullable.value "null"
  | PlainJSON.jBool b => Nullable.value (if b then "true" else "false")
  | PlainJSON.jNum n => Nullable.value (toString n)
  | PlainJSON.jStr s => Nullable.value (quoteStr s)
  | PlainJSON.jObj fields =>
    let entries := serializeFields d fields
    Nullable.value (if entries.isEmpty then "\x7b\x7d"
      else
        "\x7b\n" ++
          String.intercalate ",\n"
            (entries.map (fun e => indentStr (d + 1) ++ e)) ++
          "\n" ++ indentStr d ++ "\x7d")

/-- The serialized `"key": value` entries of an object at depth `d`,
dropping keys whose value serializes to nothing. -/
def serializeFields (d : Nat) : List (String × PlainJSON) → List String
  | [] => []
  | (k, v) :: rest =>
    match serializeVal (d + 1) v with
    | Nullable.undefinedV => serializeFields d rest
    | Nullable.nullV => serializeFields d rest
    | Nullable.value s => (quoteStr k ++ ": " ++ s) :: serializeFields d rest

end

/-- The `toJSON` record viewed as the plain JS object it is (the input
`JSON.stringify` receives from `toString`). -/
def OptionJSON.toPlain (r : OptionJSON JSValue) : PlainJSON :=
  PlainJSON.jObj
    ([("_id", PlainJSON.jStr r.idKey), ("_tag", PlainJSON.jStr r.tagKey)] ++
      match r.valueKey with
      | Field.absent => []
      | Field.present v => [("value", resolve v)])

/-- Module-level `format(x)`: `JSON.stringify(x, null, 2)` applied to
the `toJSON` record.  A record is an object, so its serialization is
never `undefined`; the fallback arm is unreachable. -/
def format (x : OptionJSON JSValue) : String :=
  match serializeVal 0 (OptionJSON.toPlain x) with
  | Nullable.value s => s
  | _ => ""

/-- Method `toString`: `format(this.toJSON())`. -/
def Option.toStr (self : Option JSValue) : Except String String :=
  Except.map format (Option.toJSON self)

/-! ## The `None` singleton

`None` keeps a static field `#instance` (initially `undefined`) and
`None.getSingletonInstance()` lazily allocates on first use:
`if (!None.#instance) { None.#instance = new None() } return
None.#instance`.  Reference identity is modelled by giving every
allocation (`new None()`) a fresh reference id drawn from an allocation
counter; the static field is state threaded through the calls. -/

structure NoneStatics where
  instanceRef : Nullable Nat
  nextRef : Nat
deriving DecidableEq, Repr

/-- `None.getSingletonInstance()`: allocate a fresh `None` when the
static field is still unset (falsy `undefined`), else return the cached
reference. -/
def getSingletonInstance (st : NoneStatics) : Nat × NoneStatics :=
  match st.instanceRef with
  | Nullable.value r => (r, st)
  | Nullable.nullV =>
    (st.nextRef, ⟨Nullable.value st.nextRef, st.nextRef + 1⟩)
  | Nullable.undefinedV =>
    (st.nextRef, ⟨Nullable.value st.nextRef, st.nextRef + 1⟩)

/-- Static `Option.None()`: `None.getSingletonInstance()`. -/
def Option.NoneMethod (st : NoneStatics) : Nat × NoneStatics :=
  getSingletonInstance st

/-- The reference returned by the `(n+1)`-th consecutive call to
`Option.None()` starting from statics `st` (calls thread the static
state). -/
def noneCalls : Nat → NoneStatics → Nat × NoneStatics
  | 0, st => Option.NoneMethod st
  | n + 1, st => noneCalls n (Option.NoneMethod st).2

/-- A comparison strategy on runtime values that compares the numeric
payloads of two `vNum`s (a stand-in for a caller-supplied strategy). -/
def numEqStrategy : JSValue → JSValue → Bool
  | JSValue.vNum a, JSValue.vNum b => a == b
  | _, _ => false

/-! ## Helper lemmas -/

/-- The loop of `productAll` / `productMany` never reaches the throwing
branch of `get`: every element it inspects is checked with `isNone`
first. -/
theorem Option.productLoop_ok {A : Type} (c : List (Option A)) :
    ∀ out : List A, ∃ r n, Option.productLoop out c = (Except.ok r, n) := by
  induction c with
  | nil => exact fun out => ⟨Option.Some out, 0, rfl⟩
  | cons o rest ih =>
    intro out
    cases o with
    | None => exact ⟨Option.None, 1, rfl⟩
    | Some a =>
      obtain ⟨r, n, h⟩ := ih (out ++ [a])
      exact ⟨r, n + 1, by simp [Option.productLoop, Option.isNone, Option.get, h]⟩

/-- On a collection of `Some`s the loop pushes every payload in order
and consumes the whole collection. -/
theorem Option.productLoop_all_some {A : Type} (xs : List A) :
    ∀ out : List A,
      Option.productLoop out (xs.map Option.Some) =
        (Except.ok (Option.Some (out ++ xs)), xs.length) := by
  induction xs with
  | nil => intro out; simp [Option.productLoop, Option.of]
  | cons x rest ih =>
    intro out
    simp [Option.productLoop, Option.isNone, Option.get, ih (out ++ [x])]

/-- The loop returns `None` at the first `None` member, having consumed
exactly the elements up to and including it, whatever follows. -/
theorem Option.productLoop_first_none {A : Type} (xs : List A) :
    ∀ (out : List A) (post : List (Option A)),
      Option.productLoop out (xs.map Option.Some ++ Option.None :: post) =
        (Except.ok Option.None, xs.length + 1) := by
  induction xs with
  | nil => intro out post; rfl
  | cons x rest ih =>
    intro out post
    simp [Option.productLoop, Option.isNone, Option.get, ih (out ++ [x]) post]

/-- After the first call to `Option.None()` the statics are saturated:
calling again returns the same reference and leaves the statics
untouched. -/
theorem Option.NoneMethod_stable (st : NoneStatics) :
    Option.NoneMethod (Option.NoneMethod st).2 =
      ((Option.NoneMethod st).1, (Option.NoneMethod st).2) := by
  cases h : st.instanceRef <;>
    simp [Option.NoneMethod, getSingletonInstance, h]

/-- Every call in a consecutive run of `Option.None()` calls returns
the reference the first call returned. -/
theorem noneCalls_eq_first : ∀ (n : Nat) (st : NoneStatics),
    noneCalls n st = ((Option.NoneMethod st).1, (Option.NoneMethod st).2) := by
  intro n
  induction n with
  | zero => intro st; rfl
  | succ m ih =>
    intro st
    show noneCalls m (Option.NoneMethod st).2 = _
    rw [ih (Option.NoneMethod st).2, Option.NoneMethod_stable st]

/-! ## The claims -/

/-- C1: for every Option `self` and function `f` returning an Option,
`flatMap(f)(self)` returns `None` when `self` is `None` and returns
`f(a)` itself — no extra wrapping — when `self` is `Some(a)`, both for
the static `Option.flatMap` and the prototype method. -/
theorem c1_flatMap_none_some :
    ∀ (A B : Type) (f : A → Option B) (a : A),
      Option.flatMap f (Option.None : Option A) = Except.ok Option.None ∧
      Option.flatMap f (Option.Some a) = Except.ok (f a) ∧
      Option.flatMapMethod (Option.None : Option A) f = Except.ok Option.None ∧
      Option.flatMapMethod (Option.Some a) f = Except.ok (f a) := by
  intro A B f a
  exact ⟨rfl, rfl, rfl, rfl⟩

/-- C4: monad right identity — `fa.flatMap(of)` returns `fa` unchanged
(and throws nothing) for every Option `fa`. -/
theorem c4_flatMap_right_identity :
    ∀ (A : Type) (fa : Option A),
      Option.flatMap Option.of fa = Except.ok fa := by
  intro A fa
  cases fa <;> rfl

/-- C5: `fromNullable(x).getOrElse(() => sentinel)` evaluates to `x`
for an actual value `x`, and to `sentinel` when the input is `null` or
`undefined`. -/
theorem c5_fromNullable_getOrElse_roundtrip :
    ∀ (A : Type) (x sentinel : A),
      Option.getOrElse (Option.fromNullable (Nullable.value x))
          (fun _ => sentinel) = Except.ok x ∧
      Option.getOrElse (Option.fromNullable (Nullable.nullV : Nullable A))
          (fun _ => sentinel) = Except.ok sentinel ∧
      Option.getOrElse (Option.fromNullable (Nullable.undefinedV : Nullable A))
          (fun _ => sentinel) = Except.ok sentinel := by
  intro A x sentinel
  exact ⟨rfl, rfl, rfl⟩

/-- C6: `None` is a singleton — starting from any state of the static
`None.#instance` field, the references returned by any two calls in a
run of `Option.None()` calls are identical. -/
theorem c6_none_singleton :
    ∀ (st : NoneStatics) (n m : Nat),
      (noneCalls n st).1 = (noneCalls m st).1 := by
  intro st n m
  rw [noneCalls_eq_first n st, noneCalls_eq_first m st]

/-- C3: `productAll` and `productMany` iterate the collection eagerly,
return `None` as soon as the first `None` member is met — consuming
exactly the elements up to and including it, none of the rest — and
when no member is `None` they return `Some` of the array of all
payloads in iteration order (for `productMany`, headed by the payload
of `self`, whose `None` short-circuits before the iterable is touched
at all). -/
theorem c3_product_short_circuit :
    ∀ (A : Type) (a : A) (xs : List A) (post : List (Option A)),
      Option.productAll (xs.map Option.Some) =
        (Except.ok (Option.Some xs), xs.length) ∧
      Option.productAll (xs.map Option.Some ++ Option.None :: post) =
        (Except.ok Option.None, xs.length + 1) ∧
      Option.productMany (Option.Some a) (xs.map Option.Some) =
        (Except.ok (Option.Some (a :: xs)), xs.length) ∧
      Option.productMany (Option.Some a) (xs.map Option.Some ++ Option.None :: post) =
        (Except.ok Option.None, xs.length + 1) ∧
      Option.productMany (Option.None : Option A) post =
        (Except.ok Option.None, 0) := by
  intro A a xs post
  refine ⟨?_, ?_, ?_, ?_, rfl⟩
  · simpa using Option.productLoop_all_some xs []
  · simpa using Option.productLoop_first_none xs [] post
  · show Option.productLoop [a] (xs.map Option.Some) = _
    simpa using Option.productLoop_all_some xs [a]
  · show Option.productLoop [a] (xs.map Option.Some ++ Option.None :: post) = _
    simpa using Option.productLoop_first_none xs [a] post

/-- C2: `get()` on `None` is the only operation that signals failure:
it returns the error `Error('None.get')`, while `map`, `flatMap`,
`imap`, `fold`, `match`, `getOrElse`, `product`, `productMany`,
`productAll`, `reduce`, `equals`, `toJSON` and `toString` succeed (never
reach a throwing branch) on every input. -/
theorem c2_only_get_throws :
    (∀ (A : Type),
      Option.get (Option.None : Option A) = Except.error "None.get") ∧
    (∀ (A B : Type) (f : A → B) (o : Option A),
      ∃ r, Option.map f o = Except.ok r) ∧
    (∀ (A B : Type) (f : A → Option B) (o : Option A),
      ∃ r, Option.flatMap f o = Except.ok r) ∧
    (∀ (A B : Type) (f : A → B) (g : B → A) (o : Option A),
      ∃ r, Option.imap f g o = Except.ok r) ∧
    (∀ (A B : Type) (e : Unit → B) (f : A → B) (o : Option A),
      ∃ r, Option.fold e f o = Except.ok r) ∧
    (∀ (A B : Type) (cs : MatchCases A B) (o : Option A),
      ∃ r, Option.matchCases cs o = Except.ok r) ∧
    (∀ (A : Type) (d : Unit → A) (o : Option A),
      ∃ r, Option.getOrElse o d = Except.ok r) ∧
    (∀ (A B : Type) (o : Option A) (p : Option B),
      ∃ r, Option.product o p = Except.ok r) ∧
    (∀ (A : Type) (o : Option A) (c : List (Option A)),
      ∃ r n, Option.productMany o c = (Except.ok r, n)) ∧
    (∀ (A : Type) (c : List (Option A)),
      ∃ r n, Option.productAll c = (Except.ok r, n)) ∧
    (∀ (A B : Type) (b : B) (f : B → A → B) (o : Option A),
      ∃ r, Option.reduce b f o = Except.ok r) ∧
    (∀ (o : Option JSValue) (that : JSValue) (s : JSValue → JSValue → Bool),
      ∃ r, Option.equals o that s = Except.ok r) ∧
    (∀ (A : Type) (o : Option A), ∃ r, Option.toJSON o = Except.ok r) ∧
    (∀ (o : Option JSValue), ∃ r, Option.toStr o = Except.ok r) := by
  refine ⟨fun A => rfl, ?_, ?_, ?_, ?_, ?_, ?_, ?_, ?_, ?_, ?_, ?_, ?_, ?_⟩
  · intro A B f o; cases o <;> exact ⟨_, rfl⟩
  · intro A B f o; cases o <;> exact ⟨_, rfl⟩
  · intro A B f g o; cases o <;> exact ⟨_, rfl⟩
  · intro A B e f o; cases o <;> exact ⟨_, rfl⟩
  · intro A B cs o; cases o <;> exact ⟨_, rfl⟩
  · intro A d o; cases o <;> exact ⟨_, rfl⟩
  · intro A B o p; cases o <;> cases p <;> exact ⟨_, rfl⟩
  · intro A o c
    cases o with
    | None => exact ⟨Option.None, 0, rfl⟩
    | Some a =>
      obtain ⟨r, n, h⟩ := Option.productLoop_ok c [a]
      exact ⟨r, n, h⟩
  · intro A c
    obtain ⟨r, n, h⟩ := Option.productLoop_ok c []
    exact ⟨r, n, h⟩
  · intro A B b f o; cases o <;> exact ⟨_, rfl⟩
  · intro o that s
    cases o with
    | None => exact ⟨_, rfl⟩
    | Some a =>
      cases that with
      | vOptionInst o₂ => cases o₂ <;> exact ⟨_, rfl⟩
      | vNull => exact ⟨_, rfl⟩
      | vUndefined => exact ⟨_, rfl⟩
      | vBool b => exact ⟨_, rfl⟩
      | vNum n => exact ⟨_, rfl⟩
      | vStr s => exact ⟨_, rfl⟩
      | vObj fs => exact ⟨_, rfl⟩
  · intro A o; cases o <;> exact ⟨_, rfl⟩
  · intro o; cases o <;> exact ⟨_, rfl⟩

/-- C7: `equals(that, strategy)` on two Option instances is `true`
exactly when both are `None`, or both are `Some` and the payloads
satisfy the supplied comparison strategy. -/
theorem c7_equals_iff :
    ∀ (o₁ o₂ : Option JSValue) (s : JSValue → JSValue → Bool),
      Option.equals o₁ (JSValue.vOptionInst o₂) s = Except.ok true ↔
        ((o₁ = Option.None ∧ o₂ = Option.None) ∨
          (∃ a b, o₁ = Option.Some a ∧ o₂ = Option.Some b ∧ s a b = true)) := by
  intro o₁ o₂ s
  cases o₁ <;> cases o₂ <;>
    simp [Option.equals, Option.isSome, Option.isOption,
      JSValue.instanceofNone, JSValue.instanceofSome, Option.get,
      JSValue.getMember, Bind.bind, Except.bind, pure, Except.pure]

/-- C7 witness: `Some(1)` equals `Some(1)` under a payload-equality
strategy, via the characterization. -/
theorem c7_equals_iff_witness :
    Option.equals (Option.Some (JSValue.vNum 1))
        (JSValue.vOptionInst (Option.Some (JSValue.vNum 1)))
        numEqStrategy = Except.ok true :=
  (c7_equals_iff (Option.Some (JSValue.vNum 1)) (Option.Some (JSValue.vNum 1))
    numEqStrategy).mpr
    (Or.inr ⟨JSValue.vNum 1, JSValue.vNum 1, rfl, rfl, rfl⟩)

/-- C8: `toJSON()` returns the record `{ _id: 'Option', _tag: 'Some' |
'None', value?: A }` with the `value` key present exactly on a `Some`,
and `toString()` is `JSON.stringify` of that record with 2-space
indentation (`format`), as on the two concrete instances shown. -/
theorem c8_serialization_shape :
    (∀ (A : Type) (a : A),
      Option.toJSON (Option.Some a) =
        Except.ok ⟨"Option", "Some", Field.present a⟩) ∧
    (∀ (A : Type),
      Option.toJSON (Option.None : Option A) =
        Except.ok ⟨"Option", "None", Field.absent⟩) ∧
    (∀ (o : Option JSValue),
      Option.toStr o = Except.map format (Option.toJSON o)) ∧
    Option.toStr (Option.Some (JSValue.vNum 1)) =
      Except.ok
        "\x7b\n  \"_id\": \"Option\",\n  \"_tag\": \"Some\",\n  \"value\": 1\n\x7d" ∧
    Option.toStr (Option.None : Option JSValue) =
      Except.ok "\x7b\n  \"_id\": \"Option\",\n  \"_tag\": \"None\"\n\x7d" := by
  exact ⟨fun A a => rfl, fun A => rfl, fun o => rfl, by rfl, by rfl⟩

/-- C9: `Option.isOption` is an `instanceof` check — it accepts exactly
the values built by the library's `Some` / `None` classes, and rejects
plain objects that merely have the Option shape. -/
theorem c9_isOption_instances_only :
    Option.isOption
        (JSValue.vObj [("_tag", JSValue.vStr "Some"),
          ("value", JSValue.vNum 1)]) = false ∧
    Option.isOption (JSValue.vObj [("_tag", JSValue.vStr "None")]) = false ∧
    (∀ v : JSValue,
      Option.isOption v = true ↔ ∃ o, v = JSValue.vOptionInst o) := by
  refine ⟨rfl, rfl, ?_⟩
  intro v
  cases v with
  | vOptionInst o =>
    cases o <;>
      simp [Option.isOption, JSValue.instanceofNone, JSValue.instanceofSome]
  | vNull =>
    simp [Option.isOption, JSValue.instanceofNone, JSValue.instanceofSome]
  | vUndefined =>
    simp [Option.isOption, JSValue.instanceofNone, JSValue.instanceofSome]
  | vBool b =>
    simp [Option.isOption, JSValue.instanceofNone, JSValue.instanceofSome]
  | vNum n =>
    simp [Option.isOption, JSValue.instanceofNone, JSValue.instanceofSome]
  | vStr s =>
    simp [Option.isOption, JSValue.instanceofNone, JSValue.instanceofSome]
  | vObj fs =>
    simp [Option.isOption, JSValue.instanceofNone, JSValue.instanceofSome]

/-- C9 witness: a genuine `None` instance is recognized by `isOption`,
via the characterization. -/
theorem c9_isOption_instances_only_witness :
    Option.isOption (JSValue.vOptionInst Option.None) = true :=
  (c9_isOption_instances_only.2.2 (JSValue.vOptionInst Option.None)).mpr
    ⟨Option.None, rfl⟩

/-- C10: `equals` never throws on a non-Option argument — it returns
`false` — and the supplied strategy can only influence the result when
both sides are `Some` (so it is invoked only then). -/
theorem c10_equals_non_option :
    ∀ (self : Option JSValue) (that : JSValue)
      (s₁ s₂ : JSValue → JSValue → Bool),
      (Option.isOption that = false →
        Option.equals self that s₁ = Except.ok false) ∧
      ((Option.isSome self && JSValue.instanceofSome that) = false →
        Option.equals self that s₁ = Option.equals self that s₂) := by
  intro self that s₁ s₂
  constructor
  · intro h
    cases self <;> cases that <;>
      simp_all [Option.equals, Option.isSome, Option.isOption,
        JSValue.instanceofNone, JSValue.instanceofSome]
  · intro h
    cases self <;> cases that <;>
      simp_all [Option.equals, Option.isSome, Option.isOption,
        JSValue.instanceofNone, JSValue.instanceofSome]

/-- C10 witness: `null`, `undefined` and a raw payload are not Options,
and `equals` on them returns `false` (no throw) whatever the strategy;
the strategy is irrelevant when the receiver is `None`. -/
theorem c10_equals_non_option_witness :
    (Option.isOption JSValue.vNull = false ∧
      Option.equals (Option.Some (JSValue.vNum 1)) JSValue.vNull
        numEqStrategy = Except.ok false) ∧
    (Option.isOption JSValue.vUndefined = false ∧
      Option.equals (Option.Some (JSValue.vNum 1)) JSValue.vUndefined
        numEqStrategy = Except.ok false) ∧
    (Option.isOption (JSValue.vNum 1) = false ∧
      Option.equals (Option.Some (JSValue.vNum 1)) (JSValue.vNum 1)
        numEqStrategy = Except.ok false) ∧
    ((Option.isSome (Option.None : Option JSValue) &&
        JSValue.instanceofSome (JSValue.vOptionInst Option.None)) = false ∧
      Option.equals Option.None (JSValue.vOptionInst Option.None)
          numEqStrategy =
        Option.equals Option.None (JSValue.vOptionInst Option.None)
          (fun _ _ => false)) :=
  ⟨⟨rfl, (c10_equals_non_option (Option.Some (JSValue.vNum 1)) JSValue.vNull
      numEqStrategy numEqStrategy).1 rfl⟩,
    ⟨rfl, (c10_equals_non_option (Option.Some (JSValue.vNum 1))
      JSValue.vUndefined numEqStrategy numEqStrategy).1 rfl⟩,
    ⟨rfl, (c10_equals_non_option (Option.Some (JSValue.vNum 1))
      (JSValue.vNum 1) numEqStrategy numEqStrategy).1 rfl⟩,
    ⟨rfl, (c10_equals_non_option Option.None
      (JSValue.vOptionInst Option.None) numEqStrategy
      (fun _ _ => false)).2 rfl⟩⟩

end TS
